import Mathlib

/-!
Verification of the crud-route-builder repository (src/index.js, src/helpers.js).

The JavaScript source is embedded shallowly:
  pure route-composition logic becomes Lean functions, and the observable
  effects of a request handler (calling res.send, setting req.crbResult,
  calling next, calling next with an error object) become explicit record /
  inductive outcomes.  Handler functions are opaque values identified by tags,
  because the source compares them by reference (=== emptyMiddleware).
-/

namespace Crb

/-- An opaque JavaScript function value used as a request handler.
`emptyMiddleware` is the distinguished no-op handler from helpers.js line 12;
`userFn` tags caller-supplied handlers; the five remaining constructors tag the
built-in default action handlers of index.js. -/
inductive Handler
  | emptyMiddleware
  | userFn (id : Nat)
  | listAction
  | getSingleAction
  | putAction
  | postAction
  | deleteAction
  deriving DecidableEq, Repr

/-- A JavaScript value, restricted to the shapes route configuration can
contain: undefined, null, booleans, numbers, strings and function values. -/
inductive JsVal
  | undef
  | nullV
  | boolV (b : Bool)
  | numV (n : Int)
  | strV (s : String)
  | fnV (h : Handler)
  deriving DecidableEq, Repr

/-- JavaScript falsiness for the values of `JsVal`. -/
def JsVal.falsy : JsVal → Bool
  | .undef => true
  | .nullV => true
  | .boolV b => !b
  | .numV n => n == 0
  | .strV s => s == ""
  | .fnV _ => false

/-- helpers.js line 29: `typeof r.route === string || r.route instanceof String`. -/
def JsVal.isString : JsVal → Bool
  | .strV _ => true
  | _ => false

/-- The error object built by helpers.js `Err`: a status code plus a message. -/
structure ErrObj where
  status : Int
  message : String
  deriving DecidableEq, Repr

/-- helpers.js lines 1-6: `Err(status, msg)` builds an error with the given
status and message. -/
def Err (status : Int) (msg : String) : ErrObj := ⟨status, msg⟩

/-- helpers.js lines 8-10: `isFunction` is true exactly on truthy values whose
toString tag is [object Function]; on `JsVal` that is exactly the function
values (every function value is truthy). -/
def isFunction (v : JsVal) : Bool :=
  !v.falsy && (match v with | .fnV _ => true | _ => false)

/-- A route descriptor as built by `Route(method, route, func)` in index.js
lines 12-18.  All three fields are arbitrary JavaScript values until
`validateRoutes` checks them. -/
structure RouteDescriptor where
  method : JsVal
  route : JsVal
  function : JsVal
  deriving DecidableEq, Repr

/-- index.js line 4. -/
def allowedMethods : List String := ["get", "post", "put", "delete"]

/-- JavaScript `Array.prototype.indexOf` on a list of strings, comparing each
element to the given value with strict equality; -1 when absent. -/
def strListIndexOf (l : List String) (v : JsVal) : Int :=
  match l.findIdx? (fun s => v == JsVal.strV s) with
  | some i => (i : Int)
  | none => -1

/-- The per-descriptor test of index.js lines 27-31: the method is outside
`allowedMethods`, or the route is not a string, or the handler is not
callable. -/
def descriptorInvalid (r : RouteDescriptor) : Bool :=
  strListIndexOf allowedMethods r.method == -1
    || !r.route.isString
    || !isFunction r.function

/-- index.js lines 24-35: `validateRoutes` walks the descriptors in order and
throws the string literal Invalid Route object at the first invalid one. -/
def validateRoutes : List RouteDescriptor → Except String Unit
  | [] => .ok ()
  | r :: rest =>
      if descriptorInvalid r then .error "Invalid Route object"
      else validateRoutes rest

/-- helpers.js lines 21-32: `extractMiddleware` filters the descriptors whose
method and route are strictly equal to the targets and returns the function
field of the first one; when none matches it returns `emptyMiddleware`.
(The source appends a dead `|| []` after filter, which never fires.) -/
def extractMiddleware (routes : List RouteDescriptor) (method route : JsVal) : JsVal :=
  match routes.filter (fun r => r.method == method && r.route == route) with
  | m :: _ => m.function
  | [] => .fnV .emptyMiddleware

/-- The request/response effects a single dispatch can produce: the body
passed to `res.send` (if any), the value stored in `req.crbResult` (if any),
and whether the continuation `next()` was invoked. -/
structure ReqRes (α : Type) where
  sentBody : Option α
  crbResult : Option α
  nextCalled : Bool
  deriving DecidableEq, Repr

/-- helpers.js lines 45-53: `sendCrbResult(afterMiddleware, data, req, res,
next)` sends the data immediately when the after middleware is falsy or is
(by reference) `emptyMiddleware`; otherwise it stores the data in
`req.crbResult` and calls `next()`. -/
def sendCrbResult (afterMiddleware : JsVal) (data : α) : ReqRes α :=
  if afterMiddleware.falsy || afterMiddleware == JsVal.fnV Handler.emptyMiddleware then
    { sentBody := some data, crbResult := none, nextCalled := false }
  else
    { sentBody := none, crbResult := some data, nextCalled := true }

/-- helpers.js line 12: `emptyMiddleware` only invokes the continuation; it
never writes the response or the request context. -/
def emptyMiddlewareRun (st : ReqRes α) : ReqRes α :=
  { st with nextCalled := true }

/-! ### JavaScript string-to-number coercion

The GET /all handler coerces query-string values to numbers in two places:
`isNaN(val)` (index.js line 98) and the slicing comparisons
`i >= req.query._start && i <= req.query._end` (index.js line 129).  Both use
the abstract ToNumber operation.  `jsToNumber` models ToNumber on strings
following the StringNumericLiteral grammar: surrounding whitespace (the full
WhiteSpace and LineTerminator sets) is trimmed, the empty string is 0, and
the literal is either an optionally signed decimal literal (digits, optional
fraction, optional exponent) or the word Infinity, or an unsigned
hexadecimal, binary or octal integer literal (0x / 0b / 0o prefixes; the
grammar attaches no sign to these).  `none` plays the role of NaN. -/

/-- Whitespace and line-terminator characters trimmed by ToNumber: tab,
line feed, vertical tab, form feed, carriage return, space, no-break space,
the Unicode space separators, the line and paragraph separators, and the
zero-width no-break space. -/
def isJsSpace (c : Char) : Bool :=
  c == ' ' || c == '\t' || c == '\n' || c == '\r'
    || c.toNat == 0xb || c.toNat == 0xc
    || c.toNat == 0xa0 || c.toNat == 0x1680
    || (0x2000 ≤ c.toNat && c.toNat ≤ 0x200a)
    || c.toNat == 0x2028 || c.toNat == 0x2029
    || c.toNat == 0x202f || c.toNat == 0x205f || c.toNat == 0x3000
    || c.toNat == 0xfeff

/-- Numeric value of a digit character list, most significant first. -/
def digitsToNat (cs : List Char) : Nat :=
  cs.foldl (fun a c => a * 10 + (c.toNat - 48)) 0

/-- A finite JavaScript number in scaled-decimal form: the rational value
num / 10 ^ den10 (not necessarily reduced).  Order comparisons against
integers are expressed by cross-multiplying with the positive scale
10 ^ den10, which is exact, so the representation is faithful for every use
the handlers make of coerced numbers. -/
structure JsNum where
  num : Int
  den10 : Nat
  deriving DecidableEq, Repr

/-- The rational value a `JsNum` denotes. -/
def JsNum.toRat (q : JsNum) : ℚ := (q.num : ℚ) / (10 : ℚ) ^ q.den10

/-- The proposition that `q` denotes the integer `v`. -/
def JsNum.isInt (q : JsNum) (v : Int) : Prop := q.num = v * (10 : Int) ^ q.den10

/-- A JavaScript number as ToNumber can produce it from a string: a finite
value, or one of the two infinities (the word Infinity, possibly signed). -/
inductive JsNumber
  | finite (q : JsNum)
  | posInf
  | negInf
  deriving DecidableEq, Repr

/-- Negation of a coerced number, used for a leading minus sign. -/
def JsNumber.negate : JsNumber → JsNumber
  | .finite q => .finite ⟨-q.num, q.den10⟩
  | .posInf => .negInf
  | .negInf => .posInf

/-- Value of one digit in bases up to 16; 16 marks a non-digit. -/
def hexDigitVal (c : Char) : Nat :=
  if c.isDigit then c.toNat - 48
  else if 'a' ≤ c ∧ c ≤ 'f' then c.toNat - 87
  else if 'A' ≤ c ∧ c ≤ 'F' then c.toNat - 55
  else 16

/-- Numeric value of a digit list in the given base, most significant
first. -/
def radixDigitsToNat (base : Nat) (cs : List Char) : Nat :=
  cs.foldl (fun a c => a * base + hexDigitVal c) 0

/-- A non-decimal integer literal body (after the 0x / 0b / 0o prefix):
at least one digit of the base and nothing else. -/
def parseRadix (base : Nat) (cs : List Char) : Option JsNumber :=
  if !cs.isEmpty && cs.all (fun c => hexDigitVal c < base) then
    some (.finite ⟨(radixDigitsToNat base cs : Int), 0⟩)
  else none

/-- Parse the unsigned part of a decimal numeric literal: digits with an
optional fractional part, then an optional exponent.  Fails (NaN) when no
digit is present or trailing characters remain. -/
def parseUnsignedDec (cs : List Char) : Option JsNum :=
  let intPart := cs.takeWhile Char.isDigit
  let rest := cs.dropWhile Char.isDigit
  let fracPart :=
    match rest with
    | '.' :: r => r.takeWhile Char.isDigit
    | _ => []
  let rest2 :=
    match rest with
    | '.' :: r => r.dropWhile Char.isDigit
    | _ => rest
  if intPart.isEmpty && fracPart.isEmpty then none
  else
    let mantissa : JsNum :=
      ⟨(digitsToNat intPart : Int) * (10 : Int) ^ fracPart.length + digitsToNat fracPart,
        fracPart.length⟩
    match rest2 with
    | [] => some mantissa
    | c :: r =>
      if c == 'e' || c == 'E' then
        let eneg : Bool := match r with | '-' :: _ => true | _ => false
        let edigits := match r with | '+' :: t => t | '-' :: t => t | _ => r
        if !edigits.isEmpty && edigits.all Char.isDigit then
          if eneg then some ⟨mantissa.num, mantissa.den10 + digitsToNat edigits⟩
          else some ⟨mantissa.num * (10 : Int) ^ digitsToNat edigits, mantissa.den10⟩
        else none
      else none

/-- An unsigned StrDecimalLiteral body: the word Infinity or an unsigned
decimal literal. -/
def parseUnsignedStrNum (cs : List Char) : Option JsNumber :=
  if cs == ['I', 'n', 'f', 'i', 'n', 'i', 't', 'y'] then some .posInf
  else (parseUnsignedDec cs).map .finite

/-- ToNumber on a string; `none` is NaN.  The empty (whitespace-only) string
is 0; a sign may precede a decimal literal or Infinity but not a
hexadecimal, binary or octal integer literal. -/
def jsToNumber (s : String) : Option JsNumber :=
  let cs := ((s.toList.dropWhile isJsSpace).reverse.dropWhile isJsSpace).reverse
  match cs with
  | [] => some (.finite ⟨0, 0⟩)
  | '+' :: rest => parseUnsignedStrNum rest
  | '-' :: rest => (parseUnsignedStrNum rest).map JsNumber.negate
  | '0' :: c :: rest =>
      if c == 'x' || c == 'X' then parseRadix 16 rest
      else if c == 'b' || c == 'B' then parseRadix 2 rest
      else if c == 'o' || c == 'O' then parseRadix 8 rest
      else parseUnsignedStrNum cs
  | _ => parseUnsignedStrNum cs

/-- The comparison `i >= bound` of index.js line 129, where `i` is an array
index and `bound` is a query-string value: the string is coerced with
ToNumber; every comparison against NaN is false, no index reaches positive
infinity, and every index exceeds negative infinity. -/
def jsIdxGE (i : Nat) (bound : String) : Bool :=
  match jsToNumber bound with
  | some (.finite q) => (i : Int) * (10 : Int) ^ q.den10 ≥ q.num
  | some .posInf => false
  | some .negInf => true
  | none => false

/-- The comparison `i <= bound` of index.js line 129, with the same NaN and
infinity semantics. -/
def jsIdxLE (i : Nat) (bound : String) : Bool :=
  match jsToNumber bound with
  | some (.finite q) => (i : Int) * (10 : Int) ^ q.den10 ≤ q.num
  | some .posInf => true
  | some .negInf => false
  | none => false

/-! ### GET /all: filter construction, sorting, slicing -/

/-- One entry of the query filter built by index.js lines 94-111: numeric
equality, a boolean, or a case-insensitive pattern. -/
inductive FilterVal
  | num (q : JsNumber)
  | boolVal (b : Bool)
  | regexCI (pattern : String)
  deriving DecidableEq, Repr

/-- The toLowerCase operation restricted to ASCII letters, which is all
it does on the letters of true and false. -/
def asciiLowerChar (c : Char) : Char :=
  if 'A' ≤ c ∧ c ≤ 'Z' then Char.ofNat (c.toNat + 32) else c

/-- Lowercasing of a whole string, character by character. -/
def jsToLowerCase (s : String) : String := ⟨s.data.map asciiLowerChar⟩

/-- index.js lines 94-111: classify the raw string value of one recognized
query parameter.  The branches are tried in source order: number when
`!isNaN(val)`, else boolean when the lowercased value is in the true/false
list, else a case-insensitive RegExp built from the raw value. -/
def classifyQueryParam (val : String) : FilterVal :=
  if (jsToNumber val).isSome then .num ((jsToNumber val).getD (.finite ⟨0, 0⟩))
  else if ["true", "false"].contains (jsToLowerCase val) then
    .boolVal (jsToLowerCase val == "true")
  else .regexCI val

/-- index.js lines 90-92: the filter maps every query parameter whose name is
among the model properties through `classifyQueryParam`; reserved and unknown
names are dropped. -/
def buildFilter (modelProps : List String) (query : List (String × String)) :
    List (String × FilterVal) :=
  (query.filter (fun p => modelProps.contains p.1)).map
    (fun p => (p.1, classifyQueryParam p.2))

/-- The sort the GET /all handler asks of the query. -/
inductive SortChoice
  | noSort
  | asc (field : String)
  | desc (field : String)
  deriving DecidableEq, Repr

/-- JavaScript truthiness of an optional query-string value: absent is
undefined (falsy) and the empty string is falsy. -/
def jsTruthyOptStr : Option String → Bool
  | none => false
  | some s => s ≠ ""

/-- index.js lines 115-122: a sort is requested only when `_sort` and
`_order` are both truthy; ascending on the exact string ASC, descending on
the exact string DESC, and silently no sort on anything else. -/
def listSortChoice (qsort qorder : Option String) : SortChoice :=
  if jsTruthyOptStr qsort && jsTruthyOptStr qorder then
    if qorder = some "ASC" then .asc (qsort.getD "")
    else if qorder = some "DESC" then .desc (qsort.getD "")
    else .noSort
  else .noSort

/-- index.js line 129: `data.filter((o, i) => i >= _start && i <= _end)`.
The elements are paired with their indices and kept when both coerced
comparisons hold. -/
def sliceByBounds (qstart qend : String) (data : List α) : List α :=
  ((data.enum).filter (fun p => jsIdxGE p.1 qstart && jsIdxLE p.1 qend)).map Prod.snd

/-! ### Default action outcomes -/

/-- What one default action does once its data-access promise settles:
send the body, attach it to `req.crbResult` and continue, forward an error
object to `next`, or (when the promise has no catch handler) leave the
rejection unhandled. -/
inductive ActionOutcome (α : Type)
  | sent (body : α)
  | attached (crbResult : α)
  | errorNext (e : ErrObj)
  | unhandledRejection
  deriving DecidableEq, Repr

/-- Reading of a `sendCrbResult` call as an `ActionOutcome`. -/
def dispatchVia (afterMw : JsVal) (data : α) : ActionOutcome α :=
  if (sendCrbResult afterMw data).nextCalled then .attached data else .sent data

/-- The body carried by a terminal send or attach, if any. -/
def ActionOutcome.dispatchedData : ActionOutcome α → Option α
  | .sent d => some d
  | .attached d => some d
  | _ => none

/-- The response of the GET /all handler: the X-Total-Count header (when the
query succeeded) and the dispatch outcome. -/
structure ListResult (α : Type) where
  totalCountHeader : Option Nat
  outcome : ActionOutcome (List α)
  deriving DecidableEq, Repr

/-- index.js lines 124-134, the continuation of `query.exec()`: on success
set X-Total-Count to the full result length, slice only when both `_start`
and `_end` are present, and dispatch through `sendCrbResult`; on rejection
forward `Err(400, e.message)` to `next` (the catch on line 134). -/
def listActionResult (afterMw : JsVal) (qstart qend : Option String)
    (queryResult : Except String (List α)) : ListResult α :=
  match queryResult with
  | .error msg => { totalCountHeader := none, outcome := .errorNext (Err 400 msg) }
  | .ok data =>
      { totalCountHeader := some data.length
        outcome :=
          match qstart, qend with
          | some s, some e => dispatchVia afterMw (sliceByBounds s e data)
          | _, _ => dispatchVia afterMw data }

/-- index.js lines 146-157: the GET /single/:id handler dispatches the record
through `sendCrbResult` and forwards `Err(400, e.message)` on rejection. -/
def getSingleActionResult (afterMw : JsVal) (r : Except String α) : ActionOutcome α :=
  match r with
  | .ok d => dispatchVia afterMw d
  | .error msg => .errorNext (Err 400 msg)

/-- index.js lines 164-178: the PUT /:id handler dispatches the updated
record through `sendCrbResult` and forwards `Err(400, e.message)` on
rejection. -/
def putActionResult (afterMw : JsVal) (r : Except String α) : ActionOutcome α :=
  match r with
  | .ok d => dispatchVia afterMw d
  | .error msg => .errorNext (Err 400 msg)

/-- index.js lines 184-196: the POST / handler dispatches the saved record
through `sendCrbResult` and forwards `Err(400, e.message)` on rejection. -/
def postActionResult (afterMw : JsVal) (r : Except String α) : ActionOutcome α :=
  match r with
  | .ok d => dispatchVia afterMw d
  | .error msg => .errorNext (Err 400 msg)

/-- index.js lines 202-212: the DELETE /:id handler dispatches the removal
outcome through `sendCrbResult`, but its promise chain has no catch handler,
so a data-access rejection is left unhandled: no response, no error
forwarding. -/
def deleteActionResult (afterMw : JsVal) (r : Except String α) : ActionOutcome α :=
  match r with
  | .ok d => dispatchVia afterMw d
  | .error _ => .unhandledRejection

/-! ### Route registration -/

/-- One call to `router[method](path, h1, h2, h3)`: a method, a path and the
ordered handler chain. -/
structure Registration where
  method : JsVal
  path : JsVal
  handlers : List JsVal
  deriving DecidableEq, Repr

/-- The three-stage chain registered for one default slot (index.js lines
88-212): resolved before middleware, the default action handler, resolved
after middleware. -/
def defaultSlot (before after : List RouteDescriptor) (m p : String) (h : Handler) :
    Registration :=
  { method := .strV m
    path := .strV p
    handlers := [extractMiddleware before (.strV m) (.strV p), .fnV h,
      extractMiddleware after (.strV m) (.strV p)] }

/-- The five fixed default registrations of index.js, in registration
order. -/
def defaultRegistrations (before after : List RouteDescriptor) : List Registration :=
  [ defaultSlot before after "get" "/all" .listAction,
    defaultSlot before after "get" "/single/:id" .getSingleAction,
    defaultSlot before after "put" "/:id" .putAction,
    defaultSlot before after "post" "/" .postAction,
    defaultSlot before after "delete" "/:id" .deleteAction ]

/-- index.js line 73: one extension registration, wrapped as resolved before
middleware, the extension handler itself, resolved after middleware, both
resolved against the extension method and route. -/
def extensionRegistration (before after : List RouteDescriptor) (ex : RouteDescriptor) :
    Registration :=
  { method := ex.method
    path := ex.route
    handlers := [extractMiddleware before ex.method ex.route, ex.function,
      extractMiddleware after ex.method ex.route] }

/-- index.js lines 57-215: `buildRoutes` validates the three descriptor
lists (any failure aborts before anything is registered), then registers all
extensions in declaration order followed by the five default slots. -/
def buildRoutes (extensions before after : List RouteDescriptor) :
    Except String (List Registration) := do
  validateRoutes extensions
  validateRoutes before
  validateRoutes after
  return extensions.map (extensionRegistration before after)
    ++ defaultRegistrations before after

/-- Express dispatches a request to the first registration whose method and
path match; for the literal paths claims reason about, matching is string
equality. -/
def firstMatch (regs : List Registration) (m p : JsVal) : Option Registration :=
  regs.find? (fun reg => reg.method == m && reg.path == p)

/-! ### Helper lemmas -/

/-- Validation succeeds exactly when every descriptor is valid. -/
lemma validateRoutes_ok_iff (l : List RouteDescriptor) :
    validateRoutes l = .ok () ↔ ∀ r ∈ l, descriptorInvalid r = false := by
  induction l with
  | nil => simp [validateRoutes]
  | cons r rest ih =>
      by_cases h : descriptorInvalid r <;> simp [validateRoutes, h, ih]

/-- Validation throws at the first invalid descriptor, regardless of
what follows it. -/
lemma validateRoutes_first_invalid (pre rest : List RouteDescriptor)
    (d : RouteDescriptor) (hpre : ∀ x ∈ pre, descriptorInvalid x = false)
    (hd : descriptorInvalid d = true) :
    validateRoutes (pre ++ d :: rest) = .error "Invalid Route object" := by
  induction pre with
  | nil => simp [validateRoutes, hd]
  | cons x xs ih =>
      have hx : descriptorInvalid x = false := hpre x (List.mem_cons_self x xs)
      simp only [List.cons_append, validateRoutes, hx, Bool.false_eq_true, if_false]
      exact ih fun y hy => hpre y (List.mem_cons_of_mem x hy)

/-- Inversion for `buildRoutes`: success means all three validations passed
and the output is the extension registrations followed by the defaults. -/
lemma buildRoutes_ok_iff (e b a : List RouteDescriptor) (regs : List Registration) :
    buildRoutes e b a = .ok regs ↔
      validateRoutes e = .ok () ∧ validateRoutes b = .ok () ∧ validateRoutes a = .ok ()
        ∧ regs = e.map (extensionRegistration b a) ++ defaultRegistrations b a := by
  unfold buildRoutes
  cases he : validateRoutes e <;> cases hb : validateRoutes b <;>
    cases ha : validateRoutes a <;>
      simp [Bind.bind, Except.bind, pure, Except.pure, eq_comm]

/-- Dispatch always carries the given data in its terminal outcome. -/
lemma dispatchedData_dispatchVia (am : JsVal) (d : α) :
    (dispatchVia am d).dispatchedData = some d := by
  unfold dispatchVia
  by_cases h : (sendCrbResult am d).nextCalled <;> simp [h, ActionOutcome.dispatchedData]

/-! ### Claim theorems -/

/-- C1: every call to `sendCrbResult` produces exactly one of the two
effects: either the data is sent as the response body immediately (and
`req.crbResult` is never populated, the continuation never invoked), or the
data is attached to `req.crbResult` and the continuation invoked (and
nothing is sent); the attach-and-continue branch happens exactly when the
after-handler argument is present (truthy) and is not the no-op
`emptyMiddleware` handler. -/
theorem sendCrbResult_exactly_one (α : Type) (am : JsVal) (d : α) :
    (sendCrbResult am d = ⟨some d, none, false⟩ ↔
        ¬(am.falsy = false ∧ am ≠ JsVal.fnV Handler.emptyMiddleware))
    ∧ (sendCrbResult am d = ⟨none, some d, true⟩ ↔
        (am.falsy = false ∧ am ≠ JsVal.fnV Handler.emptyMiddleware)) := by
  unfold sendCrbResult
  by_cases hf : am.falsy <;> by_cases he : am = JsVal.fnV Handler.emptyMiddleware <;>
    simp [hf, he, ReqRes.mk.injEq]

/-- C2 evidence: on a data-access rejection carrying message db down, the
get-one, update, create and list default actions all forward Err(400, db
down) to next (bypassing any after middleware), but the delete default
action leaves the rejection unhandled because its promise chain has no catch
handler — contradicting the uniform failure semantics the claim states. -/
theorem delete_rejection_unhandled :
    getSingleActionResult (α := Bool) (JsVal.fnV (Handler.userFn 7)) (Except.error "db down")
        = .errorNext (Err 400 "db down")
    ∧ putActionResult (α := Bool) (JsVal.fnV (Handler.userFn 7)) (Except.error "db down")
        = .errorNext (Err 400 "db down")
    ∧ postActionResult (α := Bool) (JsVal.fnV (Handler.userFn 7)) (Except.error "db down")
        = .errorNext (Err 400 "db down")
    ∧ (listActionResult (α := Bool) (JsVal.fnV (Handler.userFn 7)) none none
        (Except.error "db down")).outcome = .errorNext (Err 400 "db down")
    ∧ deleteActionResult (α := Bool) (JsVal.fnV (Handler.userFn 7)) (Except.error "db down")
        = .unhandledRejection := by
  refine ⟨rfl, rfl, rfl, rfl, rfl⟩

/-- C4: the filter classification of index.js lines 94-111 is a three-way
partition of all string values, tried in order: a value coercible to a
number becomes numeric equality with that number; otherwise a value whose
lowercasing is the string true or false becomes the corresponding boolean;
otherwise the raw value becomes a case-insensitive pattern.  Each
equivalence is exact, so the classification is exhaustive and mutually
exclusive. -/
theorem classifyQueryParam_trichotomy (val : String) :
    (∀ q, classifyQueryParam val = .num q ↔ jsToNumber val = some q)
    ∧ (∀ b, classifyQueryParam val = .boolVal b ↔
        jsToNumber val = none ∧ (jsToLowerCase val = "true" ∨ jsToLowerCase val = "false")
          ∧ (jsToLowerCase val == "true") = b)
    ∧ (∀ p, classifyQueryParam val = .regexCI p ↔
        jsToNumber val = none ∧ jsToLowerCase val ≠ "true" ∧ jsToLowerCase val ≠ "false"
          ∧ p = val) := by
  unfold classifyQueryParam
  cases hn : jsToNumber val with
  | some q0 =>
      simp only [hn, Option.isSome_some, if_true, Option.getD_some]
      refine ⟨fun q => ?_, fun b => ?_, fun p => ?_⟩ <;> simp [FilterVal.num.injEq, eq_comm]
  | none =>
      simp only [hn, Option.isSome_none, Bool.false_eq_true, if_false]
      by_cases hb : jsToLowerCase val = "true" ∨ jsToLowerCase val = "false"
      · have hc : (["true", "false"].contains (jsToLowerCase val)) = true := by
          simpa using hb
        refine ⟨fun q => by simp [hb], fun b => by simp [hc, hb], fun p => ?_⟩
        simp only [hc, if_true]
        constructor
        · intro h; exact absurd h (by simp)
        · rintro ⟨-, h1, h2, -⟩
          rcases hb with h | h
          · exact absurd h h1
          · exact absurd h h2
      · have hc : (["true", "false"].contains (jsToLowerCase val)) = false := by
          simpa using hb
        rw [not_or] at hb
        refine ⟨fun q => by simp [hb.1, hb.2], fun b => by simp [hc, hb.1, hb.2],
          fun p => by simp [hc, hb.1, hb.2, eq_comm]⟩

/-- C9: when both `_start` and `_end` are present but at least one does not
coerce to a number, every index comparison against the NaN bound is false,
so the dispatched body is the empty array while X-Total-Count still reports
the full result-set size. -/
theorem list_nan_bounds_empty_body (α : Type) (data : List α) (qs qe : String)
    (h : jsToNumber qs = none ∨ jsToNumber qe = none) (am : JsVal) :
    (listActionResult am (some qs) (some qe) (Except.ok data)).totalCountHeader
        = some data.length
    ∧ (listActionResult am (some qs) (some qe) (Except.ok data)).outcome.dispatchedData
        = some [] := by
  have hslice : sliceByBounds qs qe data = [] := by
    unfold sliceByBounds
    have : ∀ p ∈ data.enum, ¬(jsIdxGE p.1 qs && jsIdxLE p.1 qe) = true := by
      intro p _
      rcases h with h | h <;> simp [jsIdxGE, jsIdxLE, h]
    simp [List.filter_eq_nil_iff.mpr this]
  simp [listActionResult, hslice, dispatchedData_dispatchVia]

/-- C9 witness: concrete evaluation with a non-numeric `_start`. -/
theorem list_nan_bounds_empty_body_witness :
    (listActionResult (JsVal.fnV Handler.emptyMiddleware) (some "abc") (some "2")
        (Except.ok [true, false])).totalCountHeader = some 2
    ∧ (listActionResult (JsVal.fnV Handler.emptyMiddleware) (some "abc") (some "2")
        (Except.ok [true, false])).outcome.dispatchedData = some [] :=
  list_nan_bounds_empty_body Bool [true, false] "abc" "2" (Or.inl (by decide))
    (JsVal.fnV Handler.emptyMiddleware)

/-- C8: the GET /all handler requests a sort only when `_sort` and `_order`
are both present and truthy and `_order` is exactly ASC or exactly DESC; any
other `_order` value (lowercase variants included) yields no sort and no
error. -/
theorem listSortChoice_only_ASC_DESC (qsort qorder : Option String) :
    (∀ f, listSortChoice qsort qorder = .asc f →
        qsort = some f ∧ f ≠ "" ∧ qorder = some "ASC")
    ∧ (∀ f, listSortChoice qsort qorder = .desc f →
        qsort = some f ∧ f ≠ "" ∧ qorder = some "DESC")
    ∧ (∀ o, qorder = some o → o ≠ "ASC" → o ≠ "DESC" →
        listSortChoice qsort qorder = .noSort) := by
  unfold listSortChoice
  cases qsort with
  | none => simp [jsTruthyOptStr]
  | some s =>
      cases qorder with
      | none => simp [jsTruthyOptStr]
      | some o =>
          by_cases hs : s = "" <;> by_cases ho : o = "" <;>
            by_cases hA : o = "ASC" <;> by_cases hD : o = "DESC" <;>
              simp_all [jsTruthyOptStr]

/-- C8 witness: a lowercase `_order` value is silently ignored while the
exact value DESC selects a descending sort. -/
theorem listSortChoice_only_ASC_DESC_witness :
    ((some "name" : Option String) = some "name" ∧ "name" ≠ "" ∧
        (some "DESC" : Option String) = some "DESC")
    ∧ listSortChoice (some "name") (some "desc") = .noSort :=
  ⟨(listSortChoice_only_ASC_DESC (some "name") (some "DESC")).2.1 "name" (by decide),
    (listSortChoice_only_ASC_DESC (some "name") (some "desc")).2.2 "desc" rfl
      (by decide) (by decide)⟩

/-- C5: a descriptor sequence whose first invalid entry has a method outside
the allowed set, a non-string path or a non-callable handler makes
`validateRoutes` throw at that entry (whatever follows it), and a validation
failure in any of the three sequences passed to `buildRoutes` means no route
at all is registered: `buildRoutes` never returns a route collection. -/
theorem validateRoutes_fail_fast_all_or_nothing
    (pre rest : List RouteDescriptor) (d : RouteDescriptor)
    (hpre : ∀ x ∈ pre, descriptorInvalid x = false)
    (hd : descriptorInvalid d = true) :
    validateRoutes (pre ++ d :: rest) = .error "Invalid Route object"
    ∧ ∀ (l₁ l₂ : List RouteDescriptor) (regs : List Registration),
        buildRoutes (pre ++ d :: rest) l₁ l₂ ≠ .ok regs
        ∧ buildRoutes l₁ (pre ++ d :: rest) l₂ ≠ .ok regs
        ∧ buildRoutes l₁ l₂ (pre ++ d :: rest) ≠ .ok regs := by
  have hmem : d ∈ pre ++ d :: rest := List.mem_append_right pre (List.mem_cons_self d rest)
  have hnotok : validateRoutes (pre ++ d :: rest) ≠ .ok () := by
    intro h
    have := (validateRoutes_ok_iff _).mp h d hmem
    simp [hd] at this
  refine ⟨validateRoutes_first_invalid pre rest d hpre hd, fun l₁ l₂ regs => ?_⟩
  refine ⟨fun h => ?_, fun h => ?_, fun h => ?_⟩ <;>
    · have hv := (buildRoutes_ok_iff _ _ _ _).mp h
      exact absurd (by tauto) hnotok

/-- C5 witness: a single descriptor with the unrecognized method patch fails
validation and aborts `buildRoutes` in each of the three positions. -/
theorem validateRoutes_fail_fast_all_or_nothing_witness :
    validateRoutes [⟨.strV "patch", .strV "/x", .fnV (.userFn 0)⟩]
        = .error "Invalid Route object"
    ∧ buildRoutes [⟨.strV "patch", .strV "/x", .fnV (.userFn 0)⟩] [] []
        ≠ .ok (defaultRegistrations [] [])
    ∧ buildRoutes [] [⟨.strV "patch", .strV "/x", .fnV (.userFn 0)⟩] []
        ≠ .ok (defaultRegistrations [] [])
    ∧ buildRoutes [] [] [⟨.strV "patch", .strV "/x", .fnV (.userFn 0)⟩]
        ≠ .ok (defaultRegistrations [] []) := by
  have h := validateRoutes_fail_fast_all_or_nothing [] []
    ⟨.strV "patch", .strV "/x", .fnV (.userFn 0)⟩ (by simp) (by decide)
  exact ⟨h.1, (h.2 [] [] (defaultRegistrations [] [])).1,
    (h.2 [] [] (defaultRegistrations [] [])).2.1,
    (h.2 [] [] (defaultRegistrations [] [])).2.2⟩

/-- C10: a structurally invalid descriptor anywhere in the before or after
sequence aborts the whole registration, even though its method/path pair may
match no default slot and no extension — validation never consults
resolvability. -/
theorem malformed_before_after_aborts
    (exts before after : List RouteDescriptor) (d : RouteDescriptor)
    (hmem : d ∈ before ∨ d ∈ after) (hd : descriptorInvalid d = true) :
    ∀ regs, buildRoutes exts before after ≠ .ok regs := by
  intro regs h
  have hv := (buildRoutes_ok_iff _ _ _ _).mp h
  rcases hmem with hm | hm
  · have := (validateRoutes_ok_iff before).mp hv.2.1 d hm
    simp [hd] at this
  · have := (validateRoutes_ok_iff after).mp hv.2.2.1 d hm
    simp [hd] at this

/-- Resolution in closed form: `extractMiddleware` yields the function of the first matching
descriptor, defaulting to `emptyMiddleware`. -/
lemma extractMiddleware_eq_find (routes : List RouteDescriptor) (m p : JsVal) :
    extractMiddleware routes m p =
      ((routes.find? (fun r => r.method == m && r.route == p)).map
        (fun r => r.function)).getD (.fnV .emptyMiddleware) := by
  induction routes with
  | nil => rfl
  | cons r rest ih =>
      by_cases h : (r.method == m && r.route == p) = true
      · simp [extractMiddleware, List.filter, List.find?, h]
      · simp only [extractMiddleware, List.filter, List.find?, h]
        simpa [extractMiddleware] using ih

/-- C6: the middleware resolver returns the handler of the first descriptor
whose method and path both equal the targets, and the no-op
`emptyMiddleware` when none matches; the no-op only signals continue,
leaving response and request context untouched; and every registration
`buildRoutes` produces is a chain of exactly three stages, whether or not
any before or after entry matched. -/
theorem extractMiddleware_first_match_spec (routes : List RouteDescriptor)
    (m p : JsVal) (α : Type) (st : ReqRes α)
    (exts before after : List RouteDescriptor) (regs : List Registration) :
    extractMiddleware routes m p =
      ((routes.find? (fun r => r.method == m && r.route == p)).map
        (fun r => r.function)).getD (.fnV .emptyMiddleware)
    ∧ emptyMiddlewareRun st
        = { sentBody := st.sentBody, crbResult := st.crbResult, nextCalled := true }
    ∧ (buildRoutes exts before after = .ok regs →
        ∀ reg ∈ regs, reg.handlers.length = 3) := by
  refine ⟨extractMiddleware_eq_find routes m p, rfl, fun hok reg hreg => ?_⟩
  have hv := (buildRoutes_ok_iff _ _ _ _).mp hok
  rw [hv.2.2.2] at hreg
  rcases List.mem_append.mp hreg with hm | hm
  · rcases List.mem_map.mp hm with ⟨ex, -, hex⟩
    rw [← hex]
    rfl
  · simp only [defaultRegistrations, List.mem_cons, List.not_mem_nil, or_false] at hm
    rcases hm with h | h | h | h | h <;> rw [h] <;> rfl

/-- C6 witness: with one matching before entry the resolver returns its
handler; with none it returns the no-op; the no-op only sets the continue
flag; and all five default registrations of an empty configuration have
three stages. -/
theorem extractMiddleware_first_match_spec_witness :
    extractMiddleware [⟨.strV "get", .strV "/all", .fnV (.userFn 1)⟩,
        ⟨.strV "get", .strV "/all", .fnV (.userFn 2)⟩] (.strV "get") (.strV "/all")
        = .fnV (.userFn 1)
    ∧ extractMiddleware [] (.strV "get") (.strV "/all") = .fnV .emptyMiddleware
    ∧ emptyMiddlewareRun (⟨none, none, false⟩ : ReqRes Bool) = ⟨none, none, true⟩
    ∧ ∀ reg ∈ defaultRegistrations [] [], reg.handlers.length = 3 := by
  have h1 := extractMiddleware_first_match_spec
    [⟨.strV "get", .strV "/all", .fnV (.userFn 1)⟩,
      ⟨.strV "get", .strV "/all", .fnV (.userFn 2)⟩] (.strV "get") (.strV "/all")
    Bool ⟨none, none, false⟩ [] [] [] (defaultRegistrations [] [])
  have h2 := extractMiddleware_first_match_spec [] (.strV "get") (.strV "/all")
    Bool ⟨none, none, false⟩ [] [] [] (defaultRegistrations [] [])
  exact ⟨h1.1.trans (by decide), h2.1.trans (by decide), h1.2.1,
    h1.2.2 (by rfl)⟩

/-- Index-window filtering over an enumeration equals a take-then-drop
window, for any starting offset. -/
lemma slice_filter_enumFrom {α : Type} (s e : ℕ) (data : List α) :
    ∀ n : ℕ,
      ((List.enumFrom n data).filter
          (fun p => decide (s ≤ p.1) && decide (p.1 ≤ e))).map Prod.snd
        = (data.take (e + 1 - n)).drop (s - n) := by
  induction data with
  | nil => intro n; simp
  | cons x xs ih =>
      intro n
      simp only [List.enumFrom, List.filter_cons]
      by_cases hin : s ≤ n ∧ n ≤ e
      · have hcond : (decide (s ≤ n) && decide (n ≤ e)) = true := by
          simp [hin.1, hin.2]
        rw [if_pos hcond, List.map_cons, ih (n + 1)]
        have h1 : e + 1 - n = (e - n) + 1 := by omega
        have h2 : e + 1 - (n + 1) = e - n := by omega
        have h3 : s - n = 0 := by omega
        have h4 : s - (n + 1) = 0 := by omega
        rw [h1, h2, h3, h4, List.take_succ_cons, List.drop_zero, List.drop_zero]
      · have hcond : ¬((decide (s ≤ n) && decide (n ≤ e)) = true) := by
          simp only [Bool.and_eq_true, decide_eq_true_eq]
          exact hin
        rw [if_neg hcond, ih (n + 1)]
        by_cases hne : n ≤ e
        · have hs : n < s := by
            rcases Decidable.not_and_iff_or_not.mp hin with h | h
            · omega
            · omega
          have h1 : e + 1 - n = (e - n) + 1 := by omega
          have h2 : s - n = (s - (n + 1)) + 1 := by omega
          have h3 : e + 1 - (n + 1) = e - n := by omega
          rw [h1, h2, h3, List.take_succ_cons, List.drop_succ_cons]
        · have h1 : e + 1 - n = 0 := by omega
          have h2 : e + 1 - (n + 1) = 0 := by omega
          simp [h1, h2]

/-- Reduction of `jsIdxGE` once the bound parses to a finite value. -/
lemma jsIdxGE_some {q : JsNum} {bound : String}
    (hq : jsToNumber bound = some (.finite q)) (i : ℕ) :
    jsIdxGE i bound = decide ((i : Int) * 10 ^ q.den10 ≥ q.num) := by
  unfold jsIdxGE
  rw [hq]

/-- Reduction of `jsIdxLE` once the bound parses to a finite value. -/
lemma jsIdxLE_some {q : JsNum} {bound : String}
    (hq : jsToNumber bound = some (.finite q)) (i : ℕ) :
    jsIdxLE i bound = decide ((i : Int) * 10 ^ q.den10 ≤ q.num) := by
  unfold jsIdxLE
  rw [hq]

/-- Under integer-valued bounds, the JavaScript index comparisons of the
slicing filter agree with plain natural-number comparisons. -/
lemma jsIdx_eq_of_isInt {q : JsNum} {bound : String} {v : ℕ}
    (hq : jsToNumber bound = some (.finite q)) (hv : q.isInt (v : Int)) (i : ℕ) :
    jsIdxGE i bound = decide (v ≤ i) ∧ jsIdxLE i bound = decide (i ≤ v) := by
  have hpow : (0 : Int) < 10 ^ q.den10 := pow_pos (by norm_num) q.den10
  unfold JsNum.isInt at hv
  constructor
  · rw [jsIdxGE_some hq i, hv]
    have hiff : ((i : Int) * 10 ^ q.den10 ≥ (v : Int) * 10 ^ q.den10) ↔ (v ≤ i) := by
      rw [ge_iff_le, mul_le_mul_right hpow]
      exact_mod_cast Iff.rfl
    simp only [decide_eq_decide]
    exact hiff
  · rw [jsIdxLE_some hq i, hv]
    have hiff : ((i : Int) * 10 ^ q.den10 ≤ (v : Int) * 10 ^ q.den10) ↔ (i ≤ v) := by
      rw [mul_le_mul_right hpow]
      exact_mod_cast Iff.rfl
    simp only [decide_eq_decide]
    exact hiff

/-- C3: with both bounds present and integer-valued with s ≤ e, the GET /all
handler dispatches exactly the elements of the query result at indices s
through e inclusive (e - s + 1 of them, or fewer when the result is
shorter), while X-Total-Count reports the pre-slicing size; with one bound
or none, the full result is dispatched unsliced. -/
theorem list_slicing_window (α : Type) (data : List α) (qs qe : String)
    (s e : ℕ) (q1 q2 : JsNum) (am : JsVal)
    (hqs : jsToNumber qs = some (.finite q1)) (hq1 : q1.isInt (s : Int))
    (hqe : jsToNumber qe = some (.finite q2)) (hq2 : q2.isInt (e : Int))
    (hse : s ≤ e) :
    (listActionResult am (some qs) (some qe) (Except.ok data)).totalCountHeader
        = some data.length
    ∧ (listActionResult am (some qs) (some qe) (Except.ok data)).outcome.dispatchedData
        = some ((data.drop s).take (e - s + 1))
    ∧ ((data.drop s).take (e - s + 1)).length = min (e - s + 1) (data.length - s)
    ∧ (listActionResult am (some qs) none (Except.ok data)).outcome.dispatchedData
        = some data
    ∧ (listActionResult am none (some qe) (Except.ok data)).outcome.dispatchedData
        = some data
    ∧ (listActionResult am none none (Except.ok data)).outcome.dispatchedData
        = some data := by
  have hslice : sliceByBounds qs qe data = (data.drop s).take (e - s + 1) := by
    unfold sliceByBounds
    have hcongr : data.enum.filter (fun p => jsIdxGE p.1 qs && jsIdxLE p.1 qe)
        = data.enum.filter (fun p => decide (s ≤ p.1) && decide (p.1 ≤ e)) := by
      refine List.filter_congr fun p _ => ?_
      rw [(jsIdx_eq_of_isInt hqs hq1 p.1).1, (jsIdx_eq_of_isInt hqe hq2 p.1).2]
    rw [hcongr]
    have henum : data.enum = List.enumFrom 0 data := rfl
    rw [henum, slice_filter_enumFrom s e data 0]
    have h1 : e + 1 - 0 = e + 1 := by omega
    have h2 : s - 0 = s := by omega
    have h3 : s + (e - s + 1) = e + 1 := by omega
    rw [h1, h2, List.take_drop s (e - s + 1) data, h3]
  refine ⟨rfl, ?_, ?_, ?_, ?_, ?_⟩
  · simp [listActionResult, hslice, dispatchedData_dispatchVia]
  · simp [List.length_take, List.length_drop]
  · simp [listActionResult, dispatchedData_dispatchVia]
  · simp [listActionResult, dispatchedData_dispatchVia]
  · simp [listActionResult, dispatchedData_dispatchVia]

/-- C3 witness: bounds 1 and 2 over a four-element result keep exactly the
elements at indices 1 and 2, with X-Total-Count 4; dropping one bound
returns everything. -/
theorem list_slicing_window_witness :
    (listActionResult JsVal.undef (some "1") (some "2")
        (Except.ok ["a", "b", "c", "d"])).totalCountHeader = some 4
    ∧ (listActionResult JsVal.undef (some "1") (some "2")
        (Except.ok ["a", "b", "c", "d"])).outcome.dispatchedData
        = some ((["a", "b", "c", "d"].drop 1).take 2)
    ∧ ((["a", "b", "c", "d"].drop 1).take 2).length = min 2 3
    ∧ (listActionResult JsVal.undef (some "1") none
        (Except.ok ["a", "b", "c", "d"])).outcome.dispatchedData
        = some ["a", "b", "c", "d"]
    ∧ (listActionResult JsVal.undef none (some "2")
        (Except.ok ["a", "b", "c", "d"])).outcome.dispatchedData
        = some ["a", "b", "c", "d"]
    ∧ (listActionResult JsVal.undef none none
        (Except.ok ["a", "b", "c", "d"])).outcome.dispatchedData
        = some ["a", "b", "c", "d"] :=
  list_slicing_window String ["a", "b", "c", "d"] "1" "2" 1 2 ⟨1, 0⟩ ⟨2, 0⟩
    JsVal.undef (by decide) (by simp [JsNum.isInt]) (by decide)
    (by simp [JsNum.isInt]) (by decide)

/-- C7: a successful build registers all extension registrations first, in
declaration order, then the five default slots; each extension is wrapped as
resolved before middleware, its own handler, resolved after middleware
(resolved against its own method and route, as `extensionRegistration`
records); consequently the first registration matching (get, /all) is the
first extension declared for that pair when one exists — its middle stage
being the extension handler instead of the built-in list action — and the
built-in list slot otherwise. -/
theorem extensions_registered_first_and_override
    (exts before after : List RouteDescriptor) (regs : List Registration)
    (hok : buildRoutes exts before after = .ok regs) :
    regs = exts.map (extensionRegistration before after)
        ++ defaultRegistrations before after
    ∧ firstMatch regs (.strV "get") (.strV "/all")
        = some (((exts.find? (fun ex => ex.method == JsVal.strV "get"
              && ex.route == JsVal.strV "/all")).map
            (extensionRegistration before after)).getD
              (defaultSlot before after "get" "/all" .listAction))
    ∧ (∀ ex, exts.find? (fun ex => ex.method == JsVal.strV "get"
          && ex.route == JsVal.strV "/all") = some ex →
        firstMatch regs (.strV "get") (.strV "/all")
          = some (extensionRegistration before after ex)
        ∧ (extensionRegistration before after ex).handlers
          = [extractMiddleware before ex.method ex.route, ex.function,
              extractMiddleware after ex.method ex.route]) := by
  have hregs : regs = exts.map (extensionRegistration before after)
      ++ defaultRegistrations before after :=
    ((buildRoutes_ok_iff _ _ _ _).mp hok).2.2.2
  have hcomp : ((fun reg : Registration =>
        reg.method == JsVal.strV "get" && reg.path == JsVal.strV "/all")
          ∘ extensionRegistration before after)
      = (fun ex : RouteDescriptor =>
          ex.method == JsVal.strV "get" && ex.route == JsVal.strV "/all") := rfl
  have hfirst : firstMatch regs (.strV "get") (.strV "/all")
      = some (((exts.find? (fun ex => ex.method == JsVal.strV "get"
            && ex.route == JsVal.strV "/all")).map
          (extensionRegistration before after)).getD
            (defaultSlot before after "get" "/all" .listAction)) := by
    rw [hregs]
    unfold firstMatch
    rw [List.find?_append, List.find?_map, hcomp]
    cases hfind : exts.find? (fun ex => ex.method == JsVal.strV "get"
        && ex.route == JsVal.strV "/all") with
    | some ex => simp [Option.or]
    | none =>
        simp only [Option.map_none, Option.or, Option.getD_none]
        rfl
  refine ⟨hregs, hfirst, fun ex hfind => ⟨?_, rfl⟩⟩
  rw [hfirst, hfind]
  rfl

/-- C7 witness: a single extension declared for (get, /all) is the first
match at GET /all, ahead of the built-in list slot, with its own handler as
the middle stage. -/
theorem extensions_registered_first_and_override_witness :
    ([extensionRegistration [] [] ⟨.strV "get", .strV "/all", .fnV (.userFn 3)⟩]
          ++ defaultRegistrations [] []
        = [extensionRegistration [] [] ⟨.strV "get", .strV "/all", .fnV (.userFn 3)⟩]
          ++ defaultRegistrations [] [])
    ∧ firstMatch
        ([extensionRegistration [] [] ⟨.strV "get", .strV "/all", .fnV (.userFn 3)⟩]
          ++ defaultRegistrations [] []) (.strV "get") (.strV "/all")
        = some (extensionRegistration [] []
            ⟨.strV "get", .strV "/all", .fnV (.userFn 3)⟩)
    ∧ (extensionRegistration [] []
          ⟨.strV "get", .strV "/all", .fnV (.userFn 3)⟩).handlers
        = [.fnV .emptyMiddleware, .fnV (.userFn 3), .fnV .emptyMiddleware] := by
  have h := extensions_registered_first_and_override
    [⟨.strV "get", .strV "/all", .fnV (.userFn 3)⟩] [] []
    ([extensionRegistration [] [] ⟨.strV "get", .strV "/all", .fnV (.userFn 3)⟩]
      ++ defaultRegistrations [] []) (by rfl)
  have h3 := h.2.2 ⟨.strV "get", .strV "/all", .fnV (.userFn 3)⟩ (by rfl)
  exact ⟨h.1, h3.1, by rfl⟩

/-- C10 witness: a before entry with a non-callable handler whose method and
path (post, /nowhere) resolve against no default slot and no extension still
aborts the build. -/
theorem malformed_before_after_aborts_witness :
    buildRoutes [] [⟨.strV "post", .strV "/nowhere", .numV 3⟩] []
        ≠ .ok (defaultRegistrations [⟨.strV "post", .strV "/nowhere", .numV 3⟩] []) :=
  malformed_before_after_aborts [] [⟨.strV "post", .strV "/nowhere", .numV 3⟩] []
    ⟨.strV "post", .strV "/nowhere", .numV 3⟩ (Or.inl (by simp)) (by decide)
    (defaultRegistrations [⟨.strV "post", .strV "/nowhere", .numV 3⟩] [])

end Crb
